import Mathlib

/-!
Shallow embedding of the reminder scheduling and notification-trigger core of
the Med-medicine-assist application (src/App.tsx, src/unnamed/part_004,
src/unnamed/part_005, src/components/MedicationCard.tsx).

Encoding conventions:
* HH:mm time-slot strings are modelled as minute-of-day naturals
  (for example 08:00 is 480, 09:05 is 545, 23:59 is 1439); the source only
  compares such strings for equality or parses them into h*60+m, so this
  encoding is faithful.
* yyyy-MM-dd local date strings are modelled as day-index naturals; the source
  compares them for equality and lexicographic order (which on that format
  agrees with chronological order).
* Millisecond epoch instants (Date.now(), wakeUpTime, timestamp) are naturals.
* Entity ids (uuid strings) are modelled as naturals.
* Stock counters are integers, because the source performs unguarded
  decrements (`m.currentStock - 1`) that can pass below zero.
* Display-only fields (name, dosage, notes, color, icon, expiryDate,
  refillDate, reminder sounds, avatars) feed only notification text and UI
  rendering and are omitted, as are the profile records they come from.
-/

/-- Enumeration FrequencyType from src/unnamed/part_000. -/
inductive FrequencyType where
  | DAILY
  | WEEKLY
  | AS_NEEDED
  | INTERVAL
deriving DecidableEq, Repr

/-- Status field of a LogEntry from src/unnamed/part_000. -/
inductive LogStatus where
  | TAKEN
  | SKIPPED
deriving DecidableEq, Repr

instance : BEq FrequencyType := ⟨fun a b => decide (a = b)⟩
instance : BEq LogStatus := ⟨fun a b => decide (a = b)⟩

/-- Medication record from src/unnamed/part_000 (scheduling-relevant fields). -/
structure Medication where
  id : Nat
  profileId : Option Nat
  frequency : FrequencyType
  times : List Nat
  daysOfWeek : List Nat
  interval : Option Nat
  startTime : Option Nat
  startDate : Option Nat
  currentStock : Int
  lowStockThreshold : Int
deriving DecidableEq, Repr

/-- LogEntry record from src/unnamed/part_000 (the opaque uuid id is omitted). -/
structure LogEntry where
  medicationId : Nat
  profileId : Option Nat
  timestamp : Nat
  status : LogStatus
  scheduledTime : Option Nat
  dateStr : Nat
deriving DecidableEq, Repr

/-- SnoozeEntry record from src/unnamed/part_000. -/
structure SnoozeEntry where
  medicationId : Nat
  scheduledTime : Nat
  wakeUpTime : Nat
deriving DecidableEq, Repr

/-- Application state touched by the dose-logging and snoozing handlers in
src/App.tsx. `notificationGranted` models `notificationPermission === 'granted'`. -/
structure AppState where
  medications : List Medication
  logs : List LogEntry
  snoozedItems : List SnoozeEntry
  activeProfileId : Nat
  notificationGranted : Bool
deriving DecidableEq, Repr

/-- Predicate used by handleLogMedication's `logs.findIndex` in src/App.tsx
(lines 324-328): the entry answers (medicationId, todayStr, scheduledTime). -/
def logMatches (medId today : Nat) (time : Option Nat) (l : LogEntry) : Bool :=
  l.medicationId == medId && l.dateStr == today && l.scheduledTime == time

/-- Low-stock alert decision of handleLogMedication, src/App.tsx lines 310-322:
fires when status is TAKEN, permission is granted and the hypothetical
decremented stock would sit at or below the threshold while the current stock
is still above it. -/
def lowStockAlertFires (st : AppState) (medId : Nat) (status : LogStatus) : Bool :=
  status == LogStatus.TAKEN && st.notificationGranted &&
    match st.medications.find? (fun m => m.id == medId) with
    | some med => med.currentStock - 1 ≤ med.lowStockThreshold &&
                  med.lowStockThreshold < med.currentStock
    | none => false

/-- Overwrite of the first log entry matched by `p`, mirroring
`newLogs[existingIndex].status = status; newLogs[existingIndex].timestamp = ...`
in src/App.tsx lines 342-345. -/
def updateFirstLog (p : LogEntry → Bool) (status : LogStatus) (ts : Nat) :
    List LogEntry → List LogEntry
  | [] => []
  | l :: rest =>
    if p l then { l with status := status, timestamp := ts } :: rest
    else l :: updateFirstLog p status ts rest

/-- Translation of handleLogMedication, src/App.tsx lines 306-367.  Besides the
new state it returns whether the low-stock notification fired during the call.
`today` is `format(new Date(), 'yyyy-MM-dd')` and `nowMs` is `Date.now()`. -/
def handleLogMedication (st : AppState) (medId : Nat) (status : LogStatus)
    (time : Option Nat) (today : Nat) (nowMs : Nat) : AppState × Bool :=
  let snoozes1 := st.snoozedItems.filter (fun s => s.medicationId != medId)
  let alert := lowStockAlertFires st medId status
  match st.logs.find? (logMatches medId today time) with
  | some existingLog =>
    let meds :=
      if existingLog.status != status then
        st.medications.map (fun m =>
          if m.id == medId then
            if status == LogStatus.TAKEN then
              { m with currentStock := m.currentStock - 1 }
            else if status == LogStatus.SKIPPED &&
                existingLog.status == LogStatus.TAKEN then
              { m with currentStock := m.currentStock + 1 }
            else m
          else m)
      else st.medications
    let logs := updateFirstLog (logMatches medId today time) status nowMs st.logs
    ({ st with medications := meds, logs := logs, snoozedItems := snoozes1 }, alert)
  | none =>
    let newLog : LogEntry :=
      { medicationId := medId, profileId := some st.activeProfileId,
        timestamp := nowMs, status := status, scheduledTime := time,
        dateStr := today }
    let meds :=
      if status == LogStatus.TAKEN then
        st.medications.map (fun m =>
          if m.id == medId then
            { m with currentStock := max 0 (m.currentStock - 1) }
          else m)
      else st.medications
    ({ st with medications := meds,
               logs := st.logs ++ [newLog],
               snoozedItems := snoozes1 }, alert)

/-- Translation of handleSnoozeMedication, src/App.tsx lines 298-304. -/
def handleSnoozeMedication (snoozes : List SnoozeEntry)
    (medId time minutes nowMs : Nat) : List SnoozeEntry :=
  (snoozes.filter fun s =>
      !(s.medicationId == medId && s.scheduledTime == time)) ++
    [{ medicationId := medId, scheduledTime := time,
       wakeUpTime := nowMs + minutes * 60 * 1000 }]

/-- Instant handed to one poller tick: `now` split exactly as checkReminders
computes it, src/App.tsx lines 158-162. -/
structure Now where
  nowMs : Nat
  dateStr : Nat
  timeStr : Nat
  dayOfWeek : Nat
deriving DecidableEq, Repr

/-- Notification emitted by one poller tick, identified by medication id and
time-slot; the constructor records which branch of checkReminders fired it. -/
inductive Fired where
  | snoozeReminder (medicationId : Nat) (scheduledTime : Nat)
  | medReminder (medicationId : Nat) (scheduledTime : Nat)
deriving DecidableEq, Repr

/-- Snooze pass of checkReminders, src/App.tsx lines 164-189: an entry whose
wakeUpTime has elapsed fires (when its medication still exists) and is dropped;
the others are retained. -/
def processSnoozes (meds : List Medication) (nowMs : Nat) :
    List SnoozeEntry → List Fired × List SnoozeEntry
  | [] => ([], [])
  | s :: rest =>
    let r := processSnoozes meds nowMs rest
    if s.wakeUpTime ≤ nowMs then
      if (meds.find? (fun m => m.id == s.medicationId)).isSome then
        (Fired.snoozeReminder s.medicationId s.scheduledTime :: r.1, r.2)
      else r
    else (r.1, s :: r.2)

/-- Scheduled-reminder decision for a single medication on one tick,
src/App.tsx lines 194-231.  `snoozes` is the pre-prune snooze list, matching
the `snoozedItems` closure the source consults there. -/
def scanMed (logs : List LogEntry) (snoozes : List SnoozeEntry) (n : Now)
    (med : Medication) : Option Fired :=
  if med.frequency == FrequencyType.AS_NEEDED then none
  else if med.frequency == FrequencyType.WEEKLY && !med.daysOfWeek.isEmpty &&
      !med.daysOfWeek.contains n.dayOfWeek then none
  else if med.times.contains n.timeStr then
    let isLogged := logs.any fun l =>
      l.medicationId == med.id && l.dateStr == n.dateStr &&
        l.scheduledTime == some n.timeStr
    let isSnoozed := snoozes.any fun s =>
      s.medicationId == med.id && s.scheduledTime == n.timeStr
    if !isLogged && !isSnoozed then
      some (Fired.medReminder med.id n.timeStr)
    else none
  else none

/-- Schedule-gating part of the scan (frequency, day-of-week and times checks,
before the log and snooze suppression): whether the medication is due at this
slot today, per src/App.tsx lines 194-203. -/
def medDueAt (med : Medication) (timeStr dayOfWeek : Nat) : Bool :=
  if med.frequency == FrequencyType.AS_NEEDED then false
  else if med.frequency == FrequencyType.WEEKLY && !med.daysOfWeek.isEmpty &&
      !med.daysOfWeek.contains dayOfWeek then false
  else med.times.contains timeStr

/-- Result of one poller tick. -/
structure TickResult where
  fired : List Fired
  snoozedItems : List SnoozeEntry
  lastCheckedMinute : Option (Nat × Nat)
deriving DecidableEq, Repr

/-- Pure translation of one run of checkReminders, src/App.tsx lines 157-234.
The snooze pass always runs; the scheduled scan is gated by the
last-checked-minute key (initially the empty ref, modelled as `none`).
checkReminders itself is installed only while notification permission is
granted (line 155), so `tick` presupposes a granted permission. -/
def tick (meds : List Medication) (logs : List LogEntry)
    (snoozes : List SnoozeEntry) (lastChecked : Option (Nat × Nat))
    (n : Now) : TickResult :=
  let snoozePass := processSnoozes meds n.nowMs snoozes
  let key := (n.dateStr, n.timeStr)
  if lastChecked == some key then
    { fired := snoozePass.1, snoozedItems := snoozePass.2,
      lastCheckedMinute := lastChecked }
  else
    { fired := snoozePass.1 ++ meds.filterMap (scanMed logs snoozes n),
      snoozedItems := snoozePass.2,
      lastCheckedMinute := some key }

/-- Future-start test of MedicationCard, src/components/MedicationCard.tsx
lines 107-108: `medication.startDate && medication.startDate > todayStr`
(an absent startDate is falsy). -/
def isFuture (med : Medication) (todayStr : Nat) : Bool :=
  match med.startDate with
  | some d => todayStr < d
  | none => false

/-- Logged-today test used by the next-dose scan, src/unnamed/part_004
line 225 (its `todayLogs` is already filtered to today's dateStr). -/
def isLoggedSlot (todayLogs : List LogEntry) (medId t : Nat) : Bool :=
  todayLogs.any fun l => l.medicationId == medId && l.scheduledTime == some t

/-- Candidate retained by the next-dose scan: medication id, time-slot and
signed minute difference to now (the source keeps the medication object; the
id identifies it). -/
structure UpcomingDose where
  medId : Nat
  time : Nat
  diff : Int
deriving DecidableEq, Repr

/-- Per-slot accumulator step of the next-dose scan, src/unnamed/part_004
lines 219-236: an unlogged slot with diff > -60 replaces the accumulator when
it is empty or when the new diff is strictly smaller. -/
def nextDoseStep (todayLogs : List LogEntry) (currentMinutes : Int)
    (medId : Nat) (u : Option UpcomingDose) (t : Nat) : Option UpcomingDose :=
  if isLoggedSlot todayLogs medId t then u
  else
    let diff : Int := (t : Int) - currentMinutes
    if -60 < diff then
      match u with
      | none => some { medId := medId, time := t, diff := diff }
      | some u0 =>
        if diff < u0.diff ∧ -60 ≤ diff then
          some { medId := medId, time := t, diff := diff }
        else some u0
    else u

/-- Per-medication step of the next-dose scan: AS_NEEDED medications are
skipped, otherwise every slot of `times` is considered. -/
def nextDoseMed (todayLogs : List LogEntry) (currentMinutes : Int)
    (u : Option UpcomingDose) (med : Medication) : Option UpcomingDose :=
  if med.frequency == FrequencyType.AS_NEEDED then u
  else med.times.foldl (nextDoseStep todayLogs currentMinutes med.id) u

/-- Translation of the nextDose computation of the Dashboard,
src/unnamed/part_004 lines 151 and 210-240: logs are filtered to today, then
every non-AS_NEEDED medication's slots are scanned. `currentMinutes` is
`now.getHours() * 60 + now.getMinutes()`. -/
def nextDose (meds : List Medication) (logs : List LogEntry) (todayStr : Nat)
    (currentMinutes : Int) : Option UpcomingDose :=
  let todayLogs := logs.filter (fun l => l.dateStr == todayStr)
  meds.foldl (nextDoseMed todayLogs currentMinutes) none

/-- Characterisation of the slots the next-dose scan considers: an unlogged
slot of a non-AS_NEEDED medication whose signed difference to now exceeds
-60 minutes. -/
def NextDoseCandidate (meds : List Medication) (logs : List LogEntry)
    (todayStr : Nat) (currentMinutes : Int) (c : UpcomingDose) : Prop :=
  ∃ med ∈ meds, med.id = c.medId ∧ med.frequency ≠ FrequencyType.AS_NEEDED ∧
    c.time ∈ med.times ∧
    isLoggedSlot (logs.filter (fun l => l.dateStr == todayStr)) med.id c.time
      = false ∧
    c.diff = (c.time : Int) - currentMinutes ∧ -60 < c.diff

/-- Statement that an accumulator value of the next-dose scan is optimal for a
pool `P` of candidates: an empty accumulator means no candidate exists, and a
kept candidate belongs to the pool and has minimal signed difference. -/
def UpcomingBest (P : UpcomingDose → Prop) : Option UpcomingDose → Prop
  | none => ∀ c, ¬ P c
  | some u => P u ∧ ∀ c, P c → u.diff ≤ c.diff

/-- Fuel-indexed translation of the while-loop of calculateIntervalTimes,
src/unnamed/part_005 lines 283-286: while the cursor has not passed 23:59
(minute 1439), record the slot and advance by the interval.  The source loop
has no fuel; fuel 1440 is shown sufficient whenever the interval is at least
one minute (and for interval 0 the source loop never terminates). -/
def intervalLoop (intervalMins : Nat) : Nat → Nat → List Nat
  | 0, _ => []
  | fuel + 1, current =>
    if current ≤ 1439 then
      current :: intervalLoop intervalMins fuel (current + intervalMins)
    else []

/-- Translation of calculateIntervalTimes, src/unnamed/part_005 lines 268-289,
with the start time already parsed to a minute-of-day (`startH * 60 + startM`)
and the interval already converted to minutes. -/
def calculateIntervalTimes (intervalMins startMinutes : Nat) : List Nat :=
  intervalLoop intervalMins 1440 startMinutes

/-- C2: evaluation at the failing input.  With a single medication at stock 0,
logging SKIPPED for a slot and then re-logging the same slot as TAKEN drives
currentStock to -1: the status-toggle branch of handleLogMedication
(src/App.tsx line 335) decrements without the floor used by the
fresh-entry branch (line 361). -/
theorem stockToggle_goes_negative :
    let med : Medication :=
      { id := 1, profileId := none, frequency := FrequencyType.DAILY,
        times := [540], daysOfWeek := [], interval := none, startTime := none,
        startDate := none, currentStock := 0, lowStockThreshold := 0 }
    let st : AppState :=
      { medications := [med], logs := [], snoozedItems := [],
        activeProfileId := 0, notificationGranted := true }
    let st1 := (handleLogMedication st 1 LogStatus.SKIPPED (some 540) 0 10).1
    let st2 := (handleLogMedication st1 1 LogStatus.TAKEN (some 540) 0 20).1
    st2.medications.map Medication.currentStock = [-1] := by decide

/-- C1 (counterexample): a medication whose startDate (day 5) is strictly
after today (day 4) is future per the card's own isFuture test, yet the
poller still fires a reminder for its 09:00 slot and nextDose still returns
that slot: neither checkReminders nor the next-dose scan consults startDate. -/
theorem startDateGating_counterexample :
    let med : Medication :=
      { id := 1, profileId := none, frequency := FrequencyType.DAILY,
        times := [540], daysOfWeek := [], interval := none, startTime := none,
        startDate := some 5, currentStock := 10, lowStockThreshold := 0 }
    isFuture med 4 = true ∧
    Fired.medReminder 1 540 ∈
      (tick [med] [] [] none
        { nowMs := 0, dateStr := 4, timeStr := 540, dayOfWeek := 2 }).fired ∧
    nextDose [med] [] 4 545 = some { medId := 1, time := 540, diff := -5 } :=
  by decide

/-- C3 (counterexample): with stock 6, threshold 5 and an existing TAKEN entry
for the slot, re-logging the same slot as TAKEN fires the low-stock alert even
though the call changes nothing: stock is 6 (strictly above the threshold)
both before and after, so no at-or-below crossing occurs.  The alert test
(src/App.tsx lines 313-314) probes the hypothetical decrement before the
idempotence check. -/
theorem lowStockCrossing_counterexample :
    let med : Medication :=
      { id := 1, profileId := none, frequency := FrequencyType.DAILY,
        times := [540], daysOfWeek := [], interval := none, startTime := none,
        startDate := none, currentStock := 6, lowStockThreshold := 5 }
    let entry : LogEntry :=
      { medicationId := 1, profileId := some 0, timestamp := 5,
        status := LogStatus.TAKEN, scheduledTime := some 540, dateStr := 0 }
    let st : AppState :=
      { medications := [med], logs := [entry], snoozedItems := [],
        activeProfileId := 0, notificationGranted := true }
    let r := handleLogMedication st 1 LogStatus.TAKEN (some 540) 0 100
    r.2 = true ∧
    r.1.medications.map Medication.currentStock = [6] := by decide

/-- C4 (counterexample): with starting stock 0, logging TAKEN (floored, stock
stays 0) and then toggling the same slot to SKIPPED increments stock to 1,
not back to its pre-TAKEN value 0. -/
theorem toggleRestore_counterexample :
    let med : Medication :=
      { id := 1, profileId := none, frequency := FrequencyType.DAILY,
        times := [540], daysOfWeek := [], interval := none, startTime := none,
        startDate := none, currentStock := 0, lowStockThreshold := 0 }
    let st : AppState :=
      { medications := [med], logs := [], snoozedItems := [],
        activeProfileId := 0, notificationGranted := true }
    let st1 := (handleLogMedication st 1 LogStatus.TAKEN (some 540) 0 10).1
    let st2 := (handleLogMedication st1 1 LogStatus.SKIPPED (some 540) 0 20).1
    st2.medications.map Medication.currentStock = [1] := by decide

theorem handleLog_alert_eq (st : AppState) (medId : Nat) (status : LogStatus)
    (time : Option Nat) (today nowMs : Nat) :
    (handleLogMedication st medId status time today nowMs).2 =
      lowStockAlertFires st medId status := by
  unfold handleLogMedication
  cases st.logs.find? (logMatches medId today time) <;> rfl

/-- C3 (amended): with notification permission granted, handleLogMedication
emits the low-stock alert iff the status is TAKEN and the medication's
pre-call stock s satisfies threshold < s ≤ threshold + 1 — the test probes the
hypothetical decrement s - 1 on the pre-call state, whether or not the call
actually changes stock. -/
theorem lowStockAlert_iff (st : AppState) (medId : Nat) (status : LogStatus)
    (time : Option Nat) (today nowMs : Nat)
    (hperm : st.notificationGranted = true) :
    (handleLogMedication st medId status time today nowMs).2 = true ↔
      status = LogStatus.TAKEN ∧
        ∃ med, st.medications.find? (fun m => m.id == medId) = some med ∧
          med.lowStockThreshold < med.currentStock ∧
          med.currentStock ≤ med.lowStockThreshold + 1 := by
  rw [handleLog_alert_eq]
  unfold lowStockAlertFires
  cases hfind : st.medications.find? (fun m => m.id == medId) with
  | none => simp [hfind, hperm]
  | some med =>
    simp [hfind, hperm]
    exact fun _ => and_comm

theorem find_none_of_all_false (p : LogEntry → Bool) (xs : List LogEntry)
    (h : ∀ l ∈ xs, p l = false) : xs.find? p = none :=
  List.find?_eq_none.mpr (fun l hl => by simp [h l hl])

theorem find_append_singleton (p : LogEntry → Bool) (xs : List LogEntry)
    (e : LogEntry) (h : ∀ l ∈ xs, p l = false) (he : p e = true) :
    (xs ++ [e]).find? p = some e := by
  induction xs with
  | nil => simp [List.find?, he]
  | cons x xs ih =>
    have hx := h x (by simp)
    rw [List.cons_append, List.find?_cons_of_neg _ (by simp [hx])]
    exact ih (fun l hl => h l (by simp [hl]))

theorem updateFirstLog_append (p : LogEntry → Bool) (status : LogStatus)
    (ts : Nat) (xs : List LogEntry) (e : LogEntry)
    (h : ∀ l ∈ xs, p l = false) (he : p e = true) :
    updateFirstLog p status ts (xs ++ [e]) =
      xs ++ [{ e with status := status, timestamp := ts }] := by
  induction xs with
  | nil => simp [updateFirstLog, he]
  | cons x xs ih =>
    have hx := h x (by simp)
    simp [updateFirstLog, hx]
    exact ih (fun l hl => h l (by simp [hl]))

theorem handleLog_not_found (st : AppState) (medId : Nat) (status : LogStatus)
    (time : Option Nat) (today nowMs : Nat)
    (h : st.logs.find? (logMatches medId today time) = none) :
    (handleLogMedication st medId status time today nowMs).1 =
      { st with
        medications :=
          if status == LogStatus.TAKEN then
            st.medications.map (fun m =>
              if m.id == medId then
                { m with currentStock := max 0 (m.currentStock - 1) }
              else m)
          else st.medications,
        logs := st.logs ++
          [{ medicationId := medId, profileId := some st.activeProfileId,
             timestamp := nowMs, status := status, scheduledTime := time,
             dateStr := today }],
        snoozedItems := st.snoozedItems.filter (fun s => s.medicationId != medId) } := by
  unfold handleLogMedication
  rw [h]

theorem handleLog_found (st : AppState) (medId : Nat) (status : LogStatus)
    (time : Option Nat) (today nowMs : Nat) (e : LogEntry)
    (h : st.logs.find? (logMatches medId today time) = some e) :
    (handleLogMedication st medId status time today nowMs).1 =
      { st with
        medications :=
          if e.status != status then
            st.medications.map (fun m =>
              if m.id == medId then
                if status == LogStatus.TAKEN then
                  { m with currentStock := m.currentStock - 1 }
                else if status == LogStatus.SKIPPED &&
                    e.status == LogStatus.TAKEN then
                  { m with currentStock := m.currentStock + 1 }
                else m
              else m)
          else st.medications,
        logs := updateFirstLog (logMatches medId today time) status nowMs st.logs,
        snoozedItems := st.snoozedItems.filter (fun s => s.medicationId != medId) } := by
  unfold handleLogMedication
  rw [h]

/-- C5: idempotence of re-logging.  Starting from a state with no entry for
(medId, today, t), logging TAKEN twice leaves the medications exactly as after
one floored decrement (the second call changes no stock), and the log store
holds exactly one entry for the tuple — the appended entry with status TAKEN
and the second call's timestamp, refreshed in place with no duplicate. -/
theorem relogTaken_idempotent (st : AppState) (medId t today now1 now2 : Nat)
    (hlog : ∀ l ∈ st.logs, logMatches medId today (some t) l = false) :
    (handleLogMedication
        (handleLogMedication st medId LogStatus.TAKEN (some t) today now1).1
        medId LogStatus.TAKEN (some t) today now2).1.medications =
      (handleLogMedication st medId LogStatus.TAKEN (some t) today now1).1.medications ∧
    (handleLogMedication st medId LogStatus.TAKEN (some t) today now1).1.medications =
      st.medications.map (fun m =>
        if m.id == medId then
          { m with currentStock := max 0 (m.currentStock - 1) }
        else m) ∧
    (handleLogMedication
        (handleLogMedication st medId LogStatus.TAKEN (some t) today now1).1
        medId LogStatus.TAKEN (some t) today now2).1.logs =
      st.logs ++
        [{ medicationId := medId, profileId := some st.activeProfileId,
           timestamp := now2, status := LogStatus.TAKEN,
           scheduledTime := some t, dateStr := today }] ∧
    ((handleLogMedication
        (handleLogMedication st medId LogStatus.TAKEN (some t) today now1).1
        medId LogStatus.TAKEN (some t) today now2).1.logs.filter
      (logMatches medId today (some t))).length = 1 := by
  have hfind1 : st.logs.find? (logMatches medId today (some t)) = none :=
    find_none_of_all_false _ _ hlog
  have h1 := handleLog_not_found st medId LogStatus.TAKEN (some t) today now1 hfind1
  have pe1 : logMatches medId today (some t)
      { medicationId := medId, profileId := some st.activeProfileId,
        timestamp := now1, status := LogStatus.TAKEN,
        scheduledTime := some t, dateStr := today } = true := by
    simp [logMatches]
  have hfind2 : ((handleLogMedication st medId LogStatus.TAKEN (some t) today
      now1).1).logs.find? (logMatches medId today (some t)) =
      some { medicationId := medId, profileId := some st.activeProfileId,
             timestamp := now1, status := LogStatus.TAKEN,
             scheduledTime := some t, dateStr := today } := by
    rw [h1]
    exact find_append_singleton _ _ _ hlog pe1
  have h2 := handleLog_found _ medId LogStatus.TAKEN (some t) today now2 _ hfind2
  refine ⟨?_, ?_, ?_, ?_⟩
  · rw [h2]
    simp
  · rw [h1]
    simp
  · rw [h2]
    simp only [AppState.mk.injEq]
    rw [h1]
    simp only []
    rw [updateFirstLog_append _ _ _ _ _ hlog pe1]
  · rw [h2]
    simp only []
    rw [h1]
    simp only []
    rw [updateFirstLog_append _ _ _ _ _ hlog pe1]
    rw [List.filter_append]
    rw [List.filter_eq_nil_iff.mpr (fun l hl => by simp [hlog l hl])]
    simp [logMatches]

theorem map_floor_dec_inc_comp (medId : Nat) (l : List Medication)
    (h : ∀ m ∈ l, m.id = medId → 1 ≤ m.currentStock) :
    l.map ((fun m =>
        if m.id = medId then
          { m with currentStock := m.currentStock + 1 }
        else m) ∘
      (fun m =>
        if m.id = medId then
          { m with currentStock := max 0 (m.currentStock - 1) }
        else m)) = l := by
  induction l with
  | nil => rfl
  | cons m l ih =>
    simp only [List.map_cons]
    rw [ih (fun x hx hid => h x (List.mem_cons_of_mem _ hx) hid)]
    by_cases hid : m.id = medId
    · have h1 : 1 ≤ m.currentStock := h m (List.mem_cons_self _ _) hid
      simp only [Function.comp_apply, hid, if_true]
      have hmax : max 0 (m.currentStock - 1) = m.currentStock - 1 :=
        max_eq_right (by omega)
      simp only [hmax]
      have hsum : m.currentStock - 1 + 1 = m.currentStock := by omega
      simp only [hsum]
      rw [← hid]
    · simp [hid]

/-- C4 (amended): starting from a state with no entry for (medId, today, t)
and every copy of the medication holding stock at least 1, logging TAKEN then
toggling the same slot to SKIPPED restores the medications (stock included) to
their pre-TAKEN values and leaves exactly one entry for the tuple, with status
SKIPPED. -/
theorem toggleTakenSkipped_restores (st : AppState) (medId t today now1 now2 : Nat)
    (hlog : ∀ l ∈ st.logs, logMatches medId today (some t) l = false)
    (hstock : ∀ m ∈ st.medications, m.id = medId → 1 ≤ m.currentStock) :
    (handleLogMedication
        (handleLogMedication st medId LogStatus.TAKEN (some t) today now1).1
        medId LogStatus.SKIPPED (some t) today now2).1.medications =
      st.medications ∧
    (handleLogMedication
        (handleLogMedication st medId LogStatus.TAKEN (some t) today now1).1
        medId LogStatus.SKIPPED (some t) today now2).1.logs =
      st.logs ++
        [{ medicationId := medId, profileId := some st.activeProfileId,
           timestamp := now2, status := LogStatus.SKIPPED,
           scheduledTime := some t, dateStr := today }] ∧
    ((handleLogMedication
        (handleLogMedication st medId LogStatus.TAKEN (some t) today now1).1
        medId LogStatus.SKIPPED (some t) today now2).1.logs.filter
      (logMatches medId today (some t))).length = 1 := by
  have hfind1 : st.logs.find? (logMatches medId today (some t)) = none :=
    find_none_of_all_false _ _ hlog
  have h1 := handleLog_not_found st medId LogStatus.TAKEN (some t) today now1 hfind1
  have pe1 : logMatches medId today (some t)
      { medicationId := medId, profileId := some st.activeProfileId,
        timestamp := now1, status := LogStatus.TAKEN,
        scheduledTime := some t, dateStr := today } = true := by
    simp [logMatches]
  have hfind2 : ((handleLogMedication st medId LogStatus.TAKEN (some t) today
      now1).1).logs.find? (logMatches medId today (some t)) =
      some { medicationId := medId, profileId := some st.activeProfileId,
             timestamp := now1, status := LogStatus.TAKEN,
             scheduledTime := some t, dateStr := today } := by
    rw [h1]
    exact find_append_singleton _ _ _ hlog pe1
  have h2 := handleLog_found _ medId LogStatus.SKIPPED (some t) today now2 _ hfind2
  refine ⟨?_, ?_, ?_⟩
  · rw [h2]
    simp only []
    rw [h1]
    simp
    rw [map_floor_dec_inc_comp medId st.medications hstock]
  · rw [h2]
    simp only []
    rw [h1]
    simp only []
    rw [updateFirstLog_append _ _ _ _ _ hlog pe1]
  · rw [h2]
    simp only []
    rw [h1]
    simp only []
    rw [updateFirstLog_append _ _ _ _ _ hlog pe1]
    rw [List.filter_append]
    rw [List.filter_eq_nil_iff.mpr (fun l hl => by simp [hlog l hl])]
    simp [logMatches]

/-- C3 witness: a fresh TAKEN log at stock 6, threshold 5 fires the alert. -/
theorem lowStockAlert_iff_witness :
    (handleLogMedication
      ⟨[⟨1, none, FrequencyType.DAILY, [540], [], none, none, none, 6, 5⟩],
       [], [], 0, true⟩ 1 LogStatus.TAKEN (some 540) 0 100).2 = true :=
  (lowStockAlert_iff
      ⟨[⟨1, none, FrequencyType.DAILY, [540], [], none, none, none, 6, 5⟩],
       [], [], 0, true⟩ 1 LogStatus.TAKEN (some 540) 0 100 rfl).mpr
    ⟨rfl, ⟨1, none, FrequencyType.DAILY, [540], [], none, none, none, 6, 5⟩,
      rfl, by decide, by decide⟩

/-- C5 witness: two TAKEN logs of the same slot leave one entry for it. -/
theorem relogTaken_idempotent_witness :
    ((handleLogMedication
        (handleLogMedication
          ⟨[⟨1, none, FrequencyType.DAILY, [540], [], none, none, none, 3, 0⟩],
           [], [], 0, true⟩ 1 LogStatus.TAKEN (some 540) 0 10).1
        1 LogStatus.TAKEN (some 540) 0 20).1.logs.filter
      (logMatches 1 0 (some 540))).length = 1 :=
  (relogTaken_idempotent
      ⟨[⟨1, none, FrequencyType.DAILY, [540], [], none, none, none, 3, 0⟩],
       [], [], 0, true⟩ 1 540 0 10 20 (by decide)).2.2.2

/-- C4 witness: TAKEN then SKIPPED at stock 3 restores the medication list. -/
theorem toggleTakenSkipped_restores_witness :
    (handleLogMedication
        (handleLogMedication
          ⟨[⟨1, none, FrequencyType.DAILY, [540], [], none, none, none, 3, 0⟩],
           [], [], 0, true⟩ 1 LogStatus.TAKEN (some 540) 0 10).1
        1 LogStatus.SKIPPED (some 540) 0 20).1.medications =
      [⟨1, none, FrequencyType.DAILY, [540], [], none, none, none, 3, 0⟩] :=
  (toggleTakenSkipped_restores
      ⟨[⟨1, none, FrequencyType.DAILY, [540], [], none, none, none, 3, 0⟩],
       [], [], 0, true⟩ 1 540 0 10 20 (by decide) (by decide)).1

theorem processSnoozes_fst_mem (meds : List Medication) (nowMs : Nat)
    (ss : List SnoozeEntry) (e : Fired)
    (he : e ∈ (processSnoozes meds nowMs ss).1) :
    ∃ s ∈ ss, e = Fired.snoozeReminder s.medicationId s.scheduledTime ∧
      s.wakeUpTime ≤ nowMs := by
  induction ss with
  | nil => simp [processSnoozes] at he
  | cons s rest ih =>
    simp only [processSnoozes] at he
    by_cases h1 : s.wakeUpTime ≤ nowMs
    · simp only [h1, if_true] at he
      by_cases h2 : ((meds.find? (fun m => m.id == s.medicationId)).isSome : Prop)
      · simp only [h2, if_true, List.mem_cons] at he
        rcases he with he | he
        · exact ⟨s, List.mem_cons_self _ _, he, h1⟩
        · obtain ⟨s', hs', rest'⟩ := ih he
          exact ⟨s', List.mem_cons_of_mem _ hs', rest'⟩
      · simp only [eq_false h2, if_false] at he
        obtain ⟨s', hs', rest'⟩ := ih he
        exact ⟨s', List.mem_cons_of_mem _ hs', rest'⟩
    · simp only [h1, if_false] at he
      obtain ⟨s', hs', rest'⟩ := ih he
      exact ⟨s', List.mem_cons_of_mem _ hs', rest'⟩

theorem scanMed_eq_some (logs : List LogEntry) (ss : List SnoozeEntry)
    (n : Now) (med : Medication) (e : Fired) :
    scanMed logs ss n med = some e ↔
      e = Fired.medReminder med.id n.timeStr ∧
      medDueAt med n.timeStr n.dayOfWeek = true ∧
      (logs.any fun l => l.medicationId == med.id && l.dateStr == n.dateStr &&
        l.scheduledTime == some n.timeStr) = false ∧
      (ss.any fun s => s.medicationId == med.id &&
        s.scheduledTime == n.timeStr) = false := by
  unfold scanMed medDueAt
  split_ifs with h1 h2 h3 <;> simp_all
  tauto

theorem tick_medReminder_mem (meds : List Medication) (logs : List LogEntry)
    (ss : List SnoozeEntry) (lastChecked : Option (Nat × Nat)) (n : Now)
    (mid t : Nat) :
    Fired.medReminder mid t ∈ (tick meds logs ss lastChecked n).fired ↔
      lastChecked ≠ some (n.dateStr, n.timeStr) ∧
      ∃ med ∈ meds, scanMed logs ss n med = some (Fired.medReminder mid t) := by
  unfold tick
  by_cases h : lastChecked = some (n.dateStr, n.timeStr)
  · simp only [h, beq_self_eq_true, if_true]
    constructor
    · intro hmem
      obtain ⟨s, _, hshape, _⟩ := processSnoozes_fst_mem _ _ _ _ hmem
      exact absurd hshape (by simp)
    · rintro ⟨hne, -⟩
      exact absurd rfl hne
  · have hbeq : (lastChecked == some (n.dateStr, n.timeStr)) = false := by
      simpa using h
    simp only [hbeq, Bool.false_eq_true, if_false, List.mem_append]
    constructor
    · rintro (hmem | hmem)
      · obtain ⟨s, _, hshape, _⟩ := processSnoozes_fst_mem _ _ _ _ hmem
        exact absurd hshape (by simp)
      · exact ⟨h, List.mem_filterMap.mp hmem⟩
    · rintro ⟨-, med, hmed, hscan⟩
      exact Or.inr (List.mem_filterMap.mpr ⟨med, hmed, hscan⟩)

/-- C7: weekly gating.  For a WEEKLY medication (with ids unique in the list):
if daysOfWeek is non-empty and excludes today's weekday, no slot is due today
and the scheduled-reminder scan fires nothing for it, whatever its times; if
daysOfWeek is empty, the medication is due every day exactly at the slots in
its times. -/
theorem weeklyGating (meds : List Medication) (logs : List LogEntry)
    (ss : List SnoozeEntry) (lastChecked : Option (Nat × Nat)) (n : Now)
    (med : Medication) (_hmem : med ∈ meds)
    (hweek : med.frequency = FrequencyType.WEEKLY)
    (huniq : ∀ m' ∈ meds, m'.id = med.id → m' = med) :
    (med.daysOfWeek ≠ [] → n.dayOfWeek ∉ med.daysOfWeek →
      (∀ t, medDueAt med t n.dayOfWeek = false) ∧
      ∀ t, Fired.medReminder med.id t ∉ (tick meds logs ss lastChecked n).fired) ∧
    (med.daysOfWeek = [] →
      ∀ dow t, medDueAt med t dow = med.times.contains t) := by
  constructor
  · intro hne hnotin
    have hdue : ∀ t, medDueAt med t n.dayOfWeek = false := by
      intro t
      unfold medDueAt
      rw [if_neg (by simp [hweek])]
      rw [if_pos]
      simp only [hweek, beq_self_eq_true, Bool.true_and, Bool.and_eq_true,
        Bool.not_eq_true']
      constructor
      · simpa [List.isEmpty_iff] using hne
      · simpa using hnotin
    refine ⟨hdue, fun t hf => ?_⟩
    obtain ⟨-, med', hmed', hscan⟩ := (tick_medReminder_mem meds logs ss
      lastChecked n med.id t).mp hf
    obtain ⟨hshape, hdue', -, -⟩ := (scanMed_eq_some logs ss n med' _).mp hscan
    have hid : med'.id = med.id := by
      have := hshape
      simp only [Fired.medReminder.injEq] at this
      exact this.1.symm
    have : med' = med := huniq med' hmed' hid
    rw [this] at hdue'
    rw [hdue n.timeStr] at hdue'
    exact Bool.false_ne_true hdue'
  · intro hempty dow t
    unfold medDueAt
    rw [if_neg (by simp [hweek])]
    rw [if_neg (by simp [hempty])]

/-- C7 witness: a WEEKLY medication scheduled on Mondays (weekday 1) with a
09:00 slot is not due and never fired on a Sunday tick (weekday 0). -/
theorem weeklyGating_witness :
    (medDueAt ⟨1, none, FrequencyType.WEEKLY, [540], [1], none, none, none, 5, 0⟩
      540 0 = false) ∧
    Fired.medReminder 1 540 ∉
      (tick [⟨1, none, FrequencyType.WEEKLY, [540], [1], none, none, none, 5, 0⟩]
        [] [] none ⟨0, 4, 540, 0⟩).fired :=
  ⟨((weeklyGating
      [⟨1, none, FrequencyType.WEEKLY, [540], [1], none, none, none, 5, 0⟩]
      [] [] none ⟨0, 4, 540, 0⟩
      ⟨1, none, FrequencyType.WEEKLY, [540], [1], none, none, none, 5, 0⟩
      (by decide) rfl (by decide)).1 (by decide) (by decide)).1 540,
   ((weeklyGating
      [⟨1, none, FrequencyType.WEEKLY, [540], [1], none, none, none, 5, 0⟩]
      [] [] none ⟨0, 4, 540, 0⟩
      ⟨1, none, FrequencyType.WEEKLY, [540], [1], none, none, none, 5, 0⟩
      (by decide) rfl (by decide)).1 (by decide) (by decide)).2 540⟩

/-- C6: snooze suppression.  After handleSnoozeMedication registers a wake-up
instant k minutes after now0, any tick whose clock is strictly before that
instant fires no notification at all for (m, t): the fresh snooze entry is not
yet elapsed (so the snooze pass keeps quiet) and its presence makes the
isSnoozed check suppress the scheduled reminder for that slot. -/
theorem snoozeSuppression (meds : List Medication) (logs : List LogEntry)
    (ss : List SnoozeEntry) (lastChecked : Option (Nat × Nat)) (n : Now)
    (m t k now0 : Nat) (h : n.nowMs < now0 + k * 60 * 1000) :
    Fired.snoozeReminder m t ∉
      (tick meds logs (handleSnoozeMedication ss m t k now0) lastChecked n).fired ∧
    Fired.medReminder m t ∉
      (tick meds logs (handleSnoozeMedication ss m t k now0) lastChecked n).fired := by
  constructor
  · intro hf
    have hsub : Fired.snoozeReminder m t ∈
        (processSnoozes meds n.nowMs (handleSnoozeMedication ss m t k now0)).1 := by
      unfold tick at hf
      by_cases hb : lastChecked = some (n.dateStr, n.timeStr)
      · simpa [hb] using hf
      · have hbeq : (lastChecked == some (n.dateStr, n.timeStr)) = false := by
          simpa using hb
        simp only [hbeq, Bool.false_eq_true, if_false, List.mem_append] at hf
        rcases hf with hf | hf
        · exact hf
        · obtain ⟨med, -, hscan⟩ := List.mem_filterMap.mp hf
          obtain ⟨hshape, -⟩ := (scanMed_eq_some logs _ n med _).mp hscan
          exact absurd hshape (by simp)
    obtain ⟨s, hs, hshape, helapsed⟩ := processSnoozes_fst_mem _ _ _ _ hsub
    have hmt : s.medicationId = m ∧ s.scheduledTime = t := by
      simp only [Fired.snoozeReminder.injEq] at hshape
      exact ⟨hshape.1.symm, hshape.2.symm⟩
    unfold handleSnoozeMedication at hs
    rw [List.mem_append] at hs
    rcases hs with hs | hs
    · have := List.of_mem_filter hs
      simp [hmt.1, hmt.2] at this
    · simp only [List.mem_singleton] at hs
      rw [hs] at helapsed
      simp only at helapsed
      omega
  · intro hf
    obtain ⟨-, med, -, hscan⟩ := (tick_medReminder_mem meds logs _
      lastChecked n m t).mp hf
    obtain ⟨hshape, -, -, hsnooze⟩ := (scanMed_eq_some logs _ n med _).mp hscan
    have hid : m = med.id ∧ t = n.timeStr := by
      simpa only [Fired.medReminder.injEq] using hshape
    have hany : ((handleSnoozeMedication ss m t k now0).any fun s =>
        s.medicationId == med.id && s.scheduledTime == n.timeStr) = true := by
      unfold handleSnoozeMedication
      rw [List.any_append]
      simp [← hid.1, ← hid.2]
    rw [hany] at hsnooze
    exact absurd hsnooze (by simp)

/-- C6 witness: snoozing a due 09:00 slot for 10 minutes at instant 1000
suppresses both kinds of notification for that slot on a tick at instant 2000,
although the slot is unlogged and matches the current minute. -/
theorem snoozeSuppression_witness :
    Fired.snoozeReminder 1 540 ∉
      (tick [⟨1, none, FrequencyType.DAILY, [540], [], none, none, none, 5, 0⟩]
        [] (handleSnoozeMedication [] 1 540 10 1000) none
        ⟨2000, 4, 540, 2⟩).fired ∧
    Fired.medReminder 1 540 ∉
      (tick [⟨1, none, FrequencyType.DAILY, [540], [], none, none, none, 5, 0⟩]
        [] (handleSnoozeMedication [] 1 540 10 1000) none
        ⟨2000, 4, 540, 2⟩).fired :=
  snoozeSuppression
    [⟨1, none, FrequencyType.DAILY, [540], [], none, none, none, 5, 0⟩]
    [] [] none ⟨2000, 4, 540, 2⟩ 1 540 10 1000 (by decide)

theorem find_isSome_startDate (meds : List Medication) (d : Option Nat)
    (mid : Nat) :
    ((meds.map (fun m => { m with startDate := d })).find?
      (fun m => m.id == mid)).isSome =
      (meds.find? (fun m => m.id == mid)).isSome := by
  induction meds with
  | nil => rfl
  | cons m rest ih =>
    by_cases h : (m.id == mid) = true
    · rw [List.map_cons,
        @List.find?_cons_of_pos Medication (fun m => m.id == mid)
          { m with startDate := d } _ h,
        @List.find?_cons_of_pos Medication (fun m => m.id == mid) m _ h]
      rfl
    · rw [List.map_cons,
        @List.find?_cons_of_neg Medication (fun m => m.id == mid)
          { m with startDate := d } _ h,
        @List.find?_cons_of_neg Medication (fun m => m.id == mid) m _ h]
      exact ih

theorem processSnoozes_startDate (meds : List Medication) (d : Option Nat)
    (nowMs : Nat) (ss : List SnoozeEntry) :
    processSnoozes (meds.map fun m => { m with startDate := d }) nowMs ss =
      processSnoozes meds nowMs ss := by
  induction ss with
  | nil => rfl
  | cons s rest ih =>
    simp only [processSnoozes, ih, find_isSome_startDate]

theorem filterMap_scan_startDate (logs : List LogEntry) (ss : List SnoozeEntry)
    (n : Now) (d : Option Nat) (meds : List Medication) :
    (meds.map fun m => { m with startDate := d }).filterMap
      (scanMed logs ss n) = meds.filterMap (scanMed logs ss n) := by
  rw [List.filterMap_map]
  rfl

/-- C1 (amended): the reminder poller and the next-dose computation ignore
startDate entirely: overwriting every medication's startDate with an arbitrary
value changes neither the tick result (fired notifications, retained snoozes,
dedup key) nor the nextDose result.  Start-date gating exists only in the
medication card's isFuture display test. -/
theorem startDateIgnored_by_poller_and_nextDose (meds : List Medication)
    (logs : List LogEntry) (ss : List SnoozeEntry)
    (lastChecked : Option (Nat × Nat)) (n : Now) (todayStr : Nat)
    (cm : Int) (d : Option Nat) :
    tick (meds.map fun m => { m with startDate := d }) logs ss lastChecked n =
      tick meds logs ss lastChecked n ∧
    nextDose (meds.map fun m => { m with startDate := d }) logs todayStr cm =
      nextDose meds logs todayStr cm := by
  constructor
  · unfold tick
    rw [processSnoozes_startDate, filterMap_scan_startDate]
  · unfold nextDose
    rw [List.foldl_map]
    rfl

theorem intervalLoop_stable (i : Nat) (hi : 1 ≤ i) :
    ∀ (f1 f2 s : Nat), 1440 - s ≤ f1 → 1440 - s ≤ f2 →
      intervalLoop i f1 s = intervalLoop i f2 s := by
  intro f1
  induction f1 with
  | zero =>
    intro f2 s h1 h2
    cases f2 with
    | zero => rfl
    | succ f =>
      unfold intervalLoop
      rw [if_neg (by omega)]
  | succ f ih =>
    intro f2 s h1 h2
    cases f2 with
    | zero =>
      unfold intervalLoop
      rw [if_neg (by omega)]
    | succ f2' =>
      unfold intervalLoop
      by_cases hs : s ≤ 1439
      · rw [if_pos hs, if_pos hs]
        rw [ih f2' (s + i) (by omega) (by omega)]
      · rw [if_neg hs, if_neg hs]

theorem intervalLoop_mem (i : Nat) (hi : 1 ≤ i) :
    ∀ (f s t : Nat), 1440 - s ≤ f →
      (t ∈ intervalLoop i f s ↔ ∃ k, t = s + k * i ∧ t ≤ 1439) := by
  intro f
  induction f with
  | zero =>
    intro s t h
    simp only [intervalLoop, List.not_mem_nil, false_iff]
    rintro ⟨k, rfl, hle⟩
    omega
  | succ f ih =>
    intro s t h
    unfold intervalLoop
    by_cases hs : s ≤ 1439
    · rw [if_pos hs, List.mem_cons, ih (s + i) t (by omega)]
      constructor
      · rintro (rfl | ⟨k, rfl, hle⟩)
        · exact ⟨0, by omega, hs⟩
        · refine ⟨k + 1, ?_, hle⟩
          rw [Nat.succ_mul]
          omega
      · rintro ⟨k, rfl, hle⟩
        cases k with
        | zero =>
          left
          omega
        | succ k' =>
          right
          refine ⟨k', ?_, hle⟩
          rw [Nat.succ_mul] at hle ⊢
          omega
    · rw [if_neg hs]
      simp only [List.not_mem_nil, false_iff]
      rintro ⟨k, rfl, hle⟩
      omega

theorem intervalLoop_head (i : Nat) :
    ∀ (f s x : Nat), (intervalLoop i f s).head? = some x → x = s := by
  intro f s x h
  cases f with
  | zero => simp [intervalLoop] at h
  | succ f =>
    unfold intervalLoop at h
    by_cases hs : s ≤ 1439
    · rw [if_pos hs] at h
      simpa using h.symm
    · rw [if_neg hs] at h
      simp at h

theorem intervalLoop_chain (i : Nat) (hi : 1 ≤ i) :
    ∀ (f s : Nat), (intervalLoop i f s).Chain' (· < ·) := by
  intro f
  induction f with
  | zero =>
    intro s
    simp [intervalLoop]
  | succ f ih =>
    intro s
    unfold intervalLoop
    by_cases hs : s ≤ 1439
    · rw [if_pos hs]
      rw [List.chain'_cons']
      refine ⟨fun y hy => ?_, ih (s + i)⟩
      have := intervalLoop_head i f (s + i) y hy
      omega
    · rw [if_neg hs]
      simp

theorem intervalLoop_zero_length :
    ∀ f : Nat, (intervalLoop 0 f 0).length = f := by
  intro f
  induction f with
  | zero => rfl
  | succ f ih =>
    unfold intervalLoop
    rw [if_pos (by omega)]
    simpa using ih

/-- C8: INTERVAL expansion.  For an interval of at least one minute, the
computed times are exactly the slots start, start+i, start+2i, ... that do not
pass minute 1439 (23:59); in particular interval 240 from 08:00 (480) yields
exactly 08:00, 12:00, 16:00, 20:00. -/
theorem intervalExpansion (i s : Nat) (hi : 1 ≤ i) :
    (∀ t, t ∈ calculateIntervalTimes i s ↔ ∃ k, t = s + k * i ∧ t ≤ 1439) ∧
    calculateIntervalTimes 240 480 = [480, 720, 960, 1200] :=
  ⟨fun t => intervalLoop_mem i hi 1440 s t (by omega), by decide⟩

/-- C8 witness: the 240-minute example extracted from the theorem at a
concrete interval. -/
theorem intervalExpansion_witness :
    calculateIntervalTimes 240 480 = [480, 720, 960, 1200] :=
  (intervalExpansion 240 480 (by decide)).2

/-- C10: termination of the interval expansion.  With interval at least one
minute the loop stabilises: fuel 1440 (the definition of
calculateIntervalTimes) already yields the fixed point reached by any larger
fuel, and the resulting list is finite and strictly increasing.  The
hypothesis is required: with interval 0 the cursor never advances, and the
fuel-indexed loop yields a strictly growing list at every extra step, so the
source's while-loop never terminates. -/
theorem intervalExpansion_terminates (i s : Nat) (hi : 1 ≤ i) :
    (∀ f, 1440 ≤ f → intervalLoop i f s = calculateIntervalTimes i s) ∧
    (calculateIntervalTimes i s).Chain' (· < ·) ∧
    (∀ f, intervalLoop 0 (f + 1) 0 ≠ intervalLoop 0 f 0) := by
  refine ⟨fun f hf => intervalLoop_stable i hi f 1440 s (by omega) (by omega),
    intervalLoop_chain i hi 1440 s, fun f heq => ?_⟩
  have := congrArg List.length heq
  rw [intervalLoop_zero_length, intervalLoop_zero_length] at this
  omega

/-- C10 witness: any fuel beyond 1440 computes the same expansion for the
240-minute example. -/
theorem intervalExpansion_terminates_witness :
    intervalLoop 240 2000 480 = calculateIntervalTimes 240 480 :=
  (intervalExpansion_terminates 240 480 (by decide)).1 2000 (by decide)

theorem UpcomingBest_iff (P Q : UpcomingDose → Prop) (h : ∀ c, P c ↔ Q c)
    (u : Option UpcomingDose) (hu : UpcomingBest P u) : UpcomingBest Q u := by
  cases u with
  | none =>
    intro c hc
    exact hu c ((h c).mpr hc)
  | some u0 =>
    exact ⟨(h u0).mp hu.1, fun c hc => hu.2 c ((h c).mpr hc)⟩

theorem upcomingStep_best (tl : List LogEntry) (cm : Int) (medId : Nat)
    (P : UpcomingDose → Prop) (u : Option UpcomingDose) (t : Nat)
    (hu : UpcomingBest P u) :
    UpcomingBest (fun c => P c ∨ (c.medId = medId ∧ c.time = t ∧
        isLoggedSlot tl medId t = false ∧ c.diff = (t : Int) - cm ∧
        -60 < c.diff))
      (nextDoseStep tl cm medId u t) := by
  unfold nextDoseStep
  by_cases hlog : isLoggedSlot tl medId t = true
  · rw [if_pos hlog]
    refine UpcomingBest_iff P _ (fun c => ?_) u hu
    constructor
    · exact Or.inl
    · rintro (hc | hc)
      · exact hc
      · rw [hc.2.2.1] at hlog
        exact absurd hlog (by simp)
  · have hlogf : isLoggedSlot tl medId t = false := by
      simpa using hlog
    rw [if_neg hlog]
    by_cases hdiff : (-60 : Int) < (t : Int) - cm
    · rw [if_pos hdiff]
      cases u with
      | none =>
        constructor
        · exact Or.inr ⟨rfl, rfl, hlogf, rfl, hdiff⟩
        · intro c hc
          rcases hc with hc | hc
          · exact absurd hc (hu c)
          · rw [hc.2.2.2.1]
      | some u0 =>
        show UpcomingBest _
          (if (t : Int) - cm < u0.diff ∧ -60 ≤ (t : Int) - cm then
            some { medId := medId, time := t, diff := (t : Int) - cm }
          else some u0)
        by_cases hlt : (t : Int) - cm < u0.diff
        · rw [if_pos ⟨hlt, by omega⟩]
          constructor
          · exact Or.inr ⟨rfl, rfl, hlogf, rfl, hdiff⟩
          · intro c hc
            rcases hc with hc | hc
            · have := hu.2 c hc
              show (t : Int) - cm ≤ c.diff
              omega
            · rw [hc.2.2.2.1]
        · rw [if_neg (fun hcon => hlt hcon.1)]
          constructor
          · exact Or.inl hu.1
          · intro c hc
            rcases hc with hc | hc
            · exact hu.2 c hc
            · rw [hc.2.2.2.1]
              omega
    · rw [if_neg hdiff]
      refine UpcomingBest_iff P _ (fun c => ?_) u hu
      constructor
      · exact Or.inl
      · rintro (hc | hc)
        · exact hc
        · rw [hc.2.2.2.1] at hc
          exact absurd hc.2.2.2.2 hdiff

theorem foldl_nextDoseStep_best (tl : List LogEntry) (cm : Int) (medId : Nat) :
    ∀ (ts : List Nat) (P : UpcomingDose → Prop) (u : Option UpcomingDose),
      UpcomingBest P u →
      UpcomingBest (fun c => P c ∨ (c.medId = medId ∧ c.time ∈ ts ∧
          isLoggedSlot tl medId c.time = false ∧
          c.diff = (c.time : Int) - cm ∧ -60 < c.diff))
        (ts.foldl (nextDoseStep tl cm medId) u) := by
  intro ts
  induction ts with
  | nil =>
    intro P u hu
    rw [List.foldl_nil]
    refine UpcomingBest_iff P _ (fun c => ?_) u hu
    simp only [List.not_mem_nil, false_and, and_false, or_false]
  | cons t ts ih =>
    intro P u hu
    rw [List.foldl_cons]
    have h1 := upcomingStep_best tl cm medId P u t hu
    have h2 := ih _ _ h1
    refine UpcomingBest_iff _ _ (fun c => ?_) _ h2
    simp only [List.mem_cons]
    constructor
    · rintro ((hp | hq) | hs)
      · exact Or.inl hp
      · exact Or.inr ⟨hq.1, Or.inl hq.2.1, by rw [hq.2.1]; exact hq.2.2.1,
          by rw [hq.2.1]; exact hq.2.2.2.1, hq.2.2.2.2⟩
      · exact Or.inr ⟨hs.1, Or.inr hs.2.1, hs.2.2.1, hs.2.2.2.1, hs.2.2.2.2⟩
    · rintro (hp | ⟨h1', (h2' | h2'), h3', h4', h5'⟩)
      · exact Or.inl (Or.inl hp)
      · exact Or.inl (Or.inr ⟨h1', h2', by rw [← h2']; exact h3',
          by rw [← h2']; exact h4', h5'⟩)
      · exact Or.inr ⟨h1', h2', h3', h4', h5'⟩

theorem nextDoseMed_best (tl : List LogEntry) (cm : Int)
    (P : UpcomingDose → Prop) (med : Medication) (u : Option UpcomingDose)
    (hu : UpcomingBest P u) :
    UpcomingBest (fun c => P c ∨ (med.id = c.medId ∧
        med.frequency ≠ FrequencyType.AS_NEEDED ∧ c.time ∈ med.times ∧
        isLoggedSlot tl med.id c.time = false ∧
        c.diff = (c.time : Int) - cm ∧ -60 < c.diff))
      (nextDoseMed tl cm u med) := by
  unfold nextDoseMed
  by_cases hf : med.frequency = FrequencyType.AS_NEEDED
  · rw [if_pos (by simp [hf])]
    refine UpcomingBest_iff P _ (fun c => ?_) u hu
    constructor
    · exact Or.inl
    · rintro (hp | hq)
      · exact hp
      · exact absurd hf hq.2.1
  · rw [if_neg (by simp [hf])]
    have h2 := foldl_nextDoseStep_best tl cm med.id med.times P u hu
    refine UpcomingBest_iff _ _ (fun c => ?_) _ h2
    constructor
    · rintro (hp | hq)
      · exact Or.inl hp
      · exact Or.inr ⟨hq.1.symm, hf, hq.2.1, hq.2.2.1, hq.2.2.2.1, hq.2.2.2.2⟩
    · rintro (hp | hq)
      · exact Or.inl hp
      · exact Or.inr ⟨hq.1.symm, hq.2.2.1, hq.2.2.2.1, hq.2.2.2.2.1, hq.2.2.2.2.2⟩

theorem foldl_nextDoseMed_best (tl : List LogEntry) (cm : Int) :
    ∀ (meds : List Medication) (P : UpcomingDose → Prop)
      (u : Option UpcomingDose), UpcomingBest P u →
      UpcomingBest (fun c => P c ∨ ∃ med ∈ meds,
          med.id = c.medId ∧ med.frequency ≠ FrequencyType.AS_NEEDED ∧
          c.time ∈ med.times ∧ isLoggedSlot tl med.id c.time = false ∧
          c.diff = (c.time : Int) - cm ∧ -60 < c.diff)
        (meds.foldl (nextDoseMed tl cm) u) := by
  intro meds
  induction meds with
  | nil =>
    intro P u hu
    rw [List.foldl_nil]
    refine UpcomingBest_iff P _ (fun c => ?_) u hu
    simp only [List.not_mem_nil, false_and, exists_false, or_false]
  | cons med meds ih =>
    intro P u hu
    rw [List.foldl_cons]
    have h1 := nextDoseMed_best tl cm P med u hu
    have h2 := ih _ _ h1
    refine UpcomingBest_iff _ _ (fun c => ?_) _ h2
    simp only [List.mem_cons]
    constructor
    · rintro ((hp | hq) | ⟨med', hm', hq'⟩)
      · exact Or.inl hp
      · exact Or.inr ⟨med, Or.inl rfl, hq⟩
      · exact Or.inr ⟨med', Or.inr hm', hq'⟩
    · rintro (hp | ⟨med', (rfl | hm'), hq'⟩)
      · exact Or.inl (Or.inl hp)
      · exact Or.inl (Or.inr hq')
      · exact Or.inr ⟨med', hm', hq'⟩

/-- C9: next-dose selection.  The pool of candidates is exactly the unlogged
slots of non-AS_NEEDED medications whose signed minute difference to now
exceeds -60 (at most 59 minutes overdue, or any amount in the future);
nextDose returns none exactly when the pool is empty and otherwise a pool
member of minimal signed difference, so slots 60 or more minutes overdue are
never surfaced.  At 09:05, medication A unlogged at 09:00 beats B unlogged at
09:30 with difference -5. -/
theorem nextDose_optimal (meds : List Medication) (logs : List LogEntry)
    (todayStr : Nat) (cm : Int) :
    UpcomingBest (NextDoseCandidate meds logs todayStr cm)
      (nextDose meds logs todayStr cm) ∧
    nextDose
      [⟨1, none, FrequencyType.DAILY, [540], [], none, none, none, 5, 0⟩,
       ⟨2, none, FrequencyType.DAILY, [570], [], none, none, none, 5, 0⟩]
      [] 0 545 = some ⟨1, 540, -5⟩ := by
  constructor
  · have h0 : UpcomingBest (fun _ => False) none := fun c hc => hc
    have h1 := foldl_nextDoseMed_best
      (logs.filter (fun l => l.dateStr == todayStr)) cm meds (fun _ => False)
      none h0
    refine UpcomingBest_iff _ _ (fun c => ?_) _ h1
    unfold NextDoseCandidate
    tauto
  · decide
